import Mathlib

/-!
Shallow embedding of the arena battle server (`src/server.js`).

Modelling conventions:
- JavaScript numbers are modelled as `ℚ` (exact rational arithmetic); the
  values flowing through the combat code are small integers or halves, far
  below any double-precision rounding.
- Timestamps (`Date.now()` values, `*Until` fields, cooldown not-before
  times) are modelled as `ℤ`.
- `Math.random()` outcomes are passed in explicitly as boolean "rolls"
  (`random < 0.35`, `random < 0.5`), so every function is deterministic in
  its inputs.
- A client-supplied stat may be absent (`undefined`/`null`, handled by
  `?? default`) or non-numeric (`Number(x)` yields `NaN`); `JsNum` models a
  present value, `Option JsNum` an optionally present one.
- Cosmetic state (event log, stomp overlay, window animations, names) has no
  effect on combat state and is not modelled.
-/

namespace Arena

/-- Arena grid width (`W = 12`). -/
def W : ℤ := 12

/-- Arena grid height (`H = 12`). -/
def H : ℤ := 12

/-- `MOD_INTERVAL_MS = 1 * 60 * 1000`. -/
def MOD_INTERVAL_MS : ℤ := 60000

/-- `MATCH_DURATION_MS = 4 * 60 * 1000`. -/
def MATCH_DURATION_MS : ℤ := 240000

/-- `COOLDOWNS_BASE.attack`. -/
def COOLDOWN_ATTACK_MS : ℚ := 1200

/-- `COOLDOWNS_BASE.heal`. -/
def COOLDOWN_HEAL_MS : ℚ := 8000

/-- `COOLDOWNS_BASE.defend`. -/
def COOLDOWN_DEFEND_MS : ℚ := 8000

/-- A JavaScript number after `Number(x)` coercion: either `NaN` or a value. -/
inductive JsNum where
  | nan : JsNum
  | num : ℚ → JsNum
deriving DecidableEq

/-- `clamp(n, min, max)` from server.js: `Number.isNaN(n)` yields `min`,
otherwise `Math.max(min, Math.min(max, n))`. -/
def clamp (n : JsNum) (lo hi : ℚ) : ℚ :=
  match n with
  | .nan => lo
  | .num q => max lo (min hi q)

/-- `clamp` applied to an argument already known to be a number (not NaN). -/
def clampQ (n lo hi : ℚ) : ℚ := max lo (min hi n)

/-- `clamp` on integer-valued arguments (used for teleport coordinates). -/
def clampZ (n lo hi : ℤ) : ℤ := max lo (min hi n)

/-- JavaScript `Math.round`: rounds to the nearest integer, halves toward
positive infinity, i.e. `⌊x + 1/2⌋`. -/
def jsRound (q : ℚ) : ℤ := ⌊q + 1/2⌋

/-- The four spawn corners. -/
inductive Corner where
  | TL | TR | BL | BR
deriving DecidableEq

/-- `cornerToSpawn(corner)`. -/
def cornerToSpawn : Corner → ℤ × ℤ
  | .TL => (1, 1)
  | .TR => (W - 2, 1)
  | .BL => (1, H - 2)
  | .BR => (W - 2, H - 2)

/-- Client-supplied `stats` object in `joinSeat`; each field may be absent. -/
structure StatsReq where
  hpMax : Option JsNum
  atk : Option JsNum
  defense : Option JsNum
  heal : Option JsNum
  power : Option JsNum
deriving DecidableEq

/-- `stats?.field ?? default`. -/
def orDefault (o : Option JsNum) (d : ℚ) : JsNum := o.getD (.num d)

/-- A player as built by `newPlayer` (its combat-relevant fields; the JS
field `def` is called `defense` here because `def` is a Lean keyword). -/
structure Player where
  corner : Corner
  x : ℤ
  y : ℤ
  hpMax : ℚ
  hp : ℚ
  atk : ℚ
  defense : ℚ
  heal : ℚ
  power : ℚ
  healLeft : ℤ
  defendLeft : ℤ
  shield : ℚ
  stink : Bool
  noDamageUntil : ℤ
  halfDamageUntil : ℤ
  skillSpeedMultUntil : ℤ
  powerPenaltyUntil : ℤ
  cooldownMultUntil : ℤ
deriving DecidableEq

/-- `newPlayer({id, name, corner, stats})` (combat-relevant fields). -/
def newPlayer (corner : Corner) (stats : StatsReq) : Player :=
  let s := cornerToSpawn corner
  { corner := corner
    x := s.1
    y := s.2
    hpMax := clamp (orDefault stats.hpMax 100) 10 9999
    hp := clamp (orDefault stats.hpMax 100) 1 9999
    atk := clamp (orDefault stats.atk 20) 1 999
    defense := clamp (orDefault stats.defense 8) 0 999
    heal := clamp (orDefault stats.heal 15) 0 999
    power := clamp (orDefault stats.power 10000) 0 999999999
    healLeft := 6
    defendLeft := 6
    shield := 0
    stink := false
    noDamageUntil := 0
    halfDamageUntil := 0
    skillSpeedMultUntil := 0
    powerPenaltyUntil := 0
    cooldownMultUntil := 0 }

/-- `dist(a, b)`: Manhattan distance. -/
def dist (a b : Player) : ℤ := |a.x - b.x| + |a.y - b.y|

/-- The two seats. -/
inductive Seat where
  | A | B
deriving DecidableEq

/-- The opposite seat (`attackerSeat === "A" ? "B" : "A"`). -/
def Seat.other : Seat → Seat
  | .A => .B
  | .B => .A

/-- Combat-relevant room state. -/
structure Room where
  started : Bool
  endsAt : ℤ
  playerA : Option Player
  playerB : Option Player
  winner : Option Seat
  loser : Option Seat
deriving DecidableEq

/-- `room.players[seat]`. -/
def Room.player (room : Room) : Seat → Option Player
  | .A => room.playerA
  | .B => room.playerB

/-- Writing `room.players[seat] = p`. -/
def Room.setPlayer (room : Room) : Seat → Player → Room
  | .A, p => { room with playerA := some p }
  | .B, p => { room with playerB := some p }

/-- `effectiveCooldownMult(p)`: the slow malus (1.5×) overrides the speed
bonus (0.6×); otherwise 1.0×. -/
def effectiveCooldownMult (t : ℤ) (p : Player) : ℚ :=
  if p.cooldownMultUntil > t then 3/2
  else if p.skillSpeedMultUntil > t then 3/5
  else 1

/-- `effectivePower(p)`: base power minus 5000 (floored at 0) while a power
penalty is active. -/
def effectivePower (t : ℤ) (p : Player) : ℚ :=
  if p.powerPenaltyUntil > t then max 0 (p.power - 5000)
  else p.power

/-- The `Math.random()` outcomes consumed by one attack resolution. -/
structure AttackRolls where
  /-- `Math.random() < 0.35` deciding a no-damage proc. -/
  noDamageRoll : Bool
  /-- `Math.random() < 0.35` deciding a teleport. -/
  teleportRoll : Bool
  /-- `Math.random() < 0.5` choosing `-3` (true) over `+3` for x. -/
  teleNegX : Bool
  /-- `Math.random() < 0.5` choosing `-3` (true) over `+3` for y. -/
  teleNegY : Bool
deriving DecidableEq

/-- Base damage from line 269: `Math.max(1, Math.round(a.atk - d.def / 2))`,
as a rational (it is integer-valued). -/
def baseDamage (a d : Player) : ℚ := max 1 ((jsRound (a.atk - d.defense / 2) : ℚ))

/-- The shield block of `resolveAttack` (lines 272-277), damage side:
`blocked = min(dmg, shield); dmg -= blocked` when `shield > 0`. -/
def shieldedDamage (dmg shield : ℚ) : ℚ :=
  if shield > 0 then dmg - min dmg shield else dmg

/-- The shield block of `resolveAttack` (lines 272-277), shield side:
`shield = max(0, shield - blocked)` when `shield > 0`. -/
def shieldAfter (dmg shield : ℚ) : ℚ :=
  if shield > 0 then max 0 (shield - min dmg shield) else shield

/-- The no-damage bonus block (lines 280-284): the attacker's active
no-damage status plus a successful roll zeroes the damage. -/
def afterNoDamage (t : ℤ) (roll : Bool) (a : Player) (dmg : ℚ) : ℚ :=
  if a.noDamageUntil > t ∧ roll then 0 else dmg

/-- The half-damage bonus block (lines 287-288):
`dmg = Math.round(dmg / 2)` while the defender's half-damage status is active. -/
def afterHalfDamage (t : ℤ) (d : Player) (dmg : ℚ) : ℚ :=
  if d.halfDamageUntil > t then ((jsRound (dmg / 2) : ℚ)) else dmg

/-- The damage an in-range attack finally subtracts from the defender's hp:
the base-damage, shield, no-damage and half-damage blocks in source order. -/
def dealtDamage (t : ℤ) (rolls : AttackRolls) (a d : Player) : ℚ :=
  afterHalfDamage t d (afterNoDamage t rolls.noDamageRoll a
    (shieldedDamage (baseDamage a d) d.shield))

/-- The teleport sub-block of the half-damage bonus (lines 290-297): new
defender x (unchanged unless the status is active and the roll succeeds). -/
def teleportX (t : ℤ) (rolls : AttackRolls) (d : Player) : ℤ :=
  if d.halfDamageUntil > t ∧ rolls.teleportRoll then
    clampZ (d.x + (if rolls.teleNegX then -3 else 3)) 1 (W - 2)
  else d.x

/-- The teleport sub-block of the half-damage bonus (lines 290-297): new
defender y. -/
def teleportY (t : ℤ) (rolls : AttackRolls) (d : Player) : ℤ :=
  if d.halfDamageUntil > t ∧ rolls.teleportRoll then
    clampZ (d.y + (if rolls.teleNegY then -3 else 3)) 1 (H - 2)
  else d.y

/-- The defender after an in-range attack resolves against them:
shield consumed, possible teleport, `hp = Math.max(0, hp - dmg)` (line 300). -/
def struckDefender (t : ℤ) (rolls : AttackRolls) (a d : Player) : Player :=
  { d with shield := shieldAfter (baseDamage a d) d.shield
           x := teleportX t rolls d
           y := teleportY t rolls d
           hp := max 0 (d.hp - dealtDamage t rolls a d) }

/-- `resolveAttack(room, attackerSeat)`: no-op when a seat is empty or the
defender is out of range (`dist > 1`); otherwise strikes the defender and, on
`hp <= 0`, records winner/loser and ends the match (lines 303-310). -/
def resolveAttack (t : ℤ) (rolls : AttackRolls) (room : Room) (attackerSeat : Seat) : Room :=
  match room.player attackerSeat, room.player attackerSeat.other with
  | some a, some d =>
    if dist a d > 1 then room
    else
      let d1 := struckDefender t rolls a d
      let room1 := room.setPlayer attackerSeat.other d1
      if d1.hp ≤ 0 then
        { room1 with winner := some attackerSeat, loser := some attackerSeat.other,
                     started := false }
      else room1
  | _, _ => room

/-- Movement directions accepted by `movePlayer`. -/
inductive Dir where
  | U | D | L | R
deriving DecidableEq

/-- The candidate cell computed by `movePlayer` before validation. -/
def candidate (p : Player) (dir : Dir) : ℤ × ℤ :=
  match dir with
  | .U => (p.x, p.y - 1)
  | .D => (p.x, p.y + 1)
  | .L => (p.x - 1, p.y)
  | .R => (p.x + 1, p.y)

/-- `canMoveTo(x, y)`: inside `[0,W)×[0,H)`. -/
def canMoveTo (x y : ℤ) : Bool :=
  !(decide (x < 0) || decide (y < 0) || decide (x ≥ W) || decide (y ≥ H))

/-- `movePlayer(room, seat, dir)`. -/
def movePlayer (room : Room) (seat : Seat) (dir : Dir) : Room :=
  match room.player seat with
  | none => room
  | some p =>
    let c := candidate p dir
    if ¬ canMoveTo c.1 c.2 then room
    else
      match room.player seat.other with
      | some o =>
        if o.x = c.1 ∧ o.y = c.2 then room
        else room.setPlayer seat { p with x := c.1, y := c.2 }
      | none => room.setPlayer seat { p with x := c.1, y := c.2 }

/-- Per-socket cooldown state (`socket.data.cooldowns`). -/
structure Cooldowns where
  attack : ℤ
  heal : ℤ
  defend : ℤ
deriving DecidableEq

/-- The three action kinds. -/
inductive ActionType where
  | attack | heal | defend
deriving DecidableEq

/-- The `action` socket handler, from the `started`/seat checks down.
Returns the updated cooldown state and room. -/
def action (t : ℤ) (rolls : AttackRolls) (cd : Cooldowns) (room : Room)
    (seat : Seat) (ty : ActionType) : Cooldowns × Room :=
  if ¬ room.started then (cd, room)
  else
    match room.player seat with
    | none => (cd, room)
    | some p =>
      let cdMult := effectiveCooldownMult t p
      match ty with
      | .attack =>
        if t < cd.attack then (cd, room)
        else ({ cd with attack := t + jsRound (COOLDOWN_ATTACK_MS * cdMult) },
              resolveAttack t rolls room seat)
      | .heal =>
        if t < cd.heal then (cd, room)
        else if p.healLeft ≤ 0 then (cd, room)
        else
          let amount := clampQ p.heal 0 999
          let p1 : Player := { p with healLeft := p.healLeft - 1,
                                      hp := min p.hpMax (p.hp + amount) }
          ({ cd with heal := t + jsRound (COOLDOWN_HEAL_MS * cdMult) },
           room.setPlayer seat p1)
      | .defend =>
        if t < cd.defend then (cd, room)
        else if p.defendLeft ≤ 0 then (cd, room)
        else
          let p1 : Player := { p with defendLeft := p.defendLeft - 1,
                                      shield := p.shield + clampQ (p.defense + 10) 5 200 }
          ({ cd with defend := t + jsRound (COOLDOWN_DEFEND_MS * cdMult) },
           room.setPlayer seat p1)

/-- The three modifier kinds (`modType = 1..3`). -/
inductive ModKind where
  | one | two | three
deriving DecidableEq

/-- `applyMod`, restricted to its effect on the randomly chosen target
player (log and throw animation are cosmetic). -/
def applyMod (t : ℤ) (isBonus : Bool) (kind : ModKind) (p : Player) : Player :=
  let untilT := t + MOD_INTERVAL_MS
  if isBonus then
    match kind with
    | .one => { p with noDamageUntil := untilT }
    | .two => { p with skillSpeedMultUntil := untilT }
    | .three => { p with halfDamageUntil := untilT }
  else
    match kind with
    | .one => { p with powerPenaltyUntil := untilT }
    | .two => { p with cooldownMultUntil := untilT }
    | .three => { p with stink := true }

/-- The match-end-by-timeout winner decision from the `setInterval` tick
(lines 556-563), given both players present: returns (winner, loser). -/
def decideTimeoutWinner (t : ℤ) (pA pB : Player) : Seat × Seat :=
  if pA.hp > pB.hp then (.A, .B)
  else if pB.hp > pA.hp then (.B, .A)
  else if effectivePower t pA ≥ effectivePower t pB then (.A, .B)
  else (.B, .A)

/-- The per-player reset performed by the `startMatch` handler. -/
def resetPlayer (p : Player) : Player :=
  let sp := cornerToSpawn p.corner
  { p with hp := p.hpMax
           shield := 0
           stink := false
           healLeft := 6
           defendLeft := 6
           noDamageUntil := 0
           halfDamageUntil := 0
           skillSpeedMultUntil := 0
           powerPenaltyUntil := 0
           cooldownMultUntil := 0
           x := sp.1
           y := sp.2 }

/-- The hp invariant: `hp ∈ [0, hpMax]`. -/
def hpInv (p : Player) : Prop := 0 ≤ p.hp ∧ p.hp ≤ p.hpMax

/-- The hp invariant lifted to an optional seat occupant. -/
def hpInvOpt : Option Player → Prop
  | none => True
  | some p => hpInv p

/-- The hp invariant for every occupied seat of a room. -/
def roomHpInv (room : Room) : Prop := hpInvOpt room.playerA ∧ hpInvOpt room.playerB

instance : DecidablePred hpInv := fun p => by
  unfold hpInv; infer_instance

instance : DecidablePred hpInvOpt := fun o => by
  cases o <;> (unfold hpInvOpt; infer_instance)

instance : DecidablePred roomHpInv := fun room => by
  unfold roomHpInv; infer_instance

/-! ### Basic lemmas about the room accessors -/

lemma player_setPlayer_same (room : Room) (s : Seat) (p : Player) :
    (room.setPlayer s p).player s = some p := by
  cases s <;> rfl

lemma player_setPlayer_of_ne (room : Room) {s s' : Seat} (h : s ≠ s') (p : Player) :
    (room.setPlayer s' p).player s = room.player s := by
  cases s <;> cases s' <;> first | rfl | exact absurd rfl h

lemma other_ne (s : Seat) : s ≠ s.other := by
  cases s <;> simp [Seat.other]

lemma other_other (s : Seat) : s.other.other = s := by
  cases s <;> rfl

lemma hpInvOpt_some {o : Option Player} {p : Player} (h : hpInvOpt o) (he : o = some p) :
    hpInv p := by
  subst he; exact h

lemma roomHpInv_player {room : Room} {s : Seat} {p : Player}
    (h : roomHpInv room) (hs : room.player s = some p) : hpInv p := by
  cases s
  · exact hpInvOpt_some h.1 hs
  · exact hpInvOpt_some h.2 hs

lemma roomHpInv_setPlayer {room : Room} (h : roomHpInv room) {p : Player}
    (hp : hpInv p) (s : Seat) : roomHpInv (room.setPlayer s p) := by
  cases s
  · exact ⟨hp, h.2⟩
  · exact ⟨h.1, hp⟩

/-! ### Nonnegativity of the damage pipeline -/

lemma baseDamage_ge_one (a d : Player) : (1 : ℚ) ≤ baseDamage a d :=
  le_max_left _ _

lemma shieldedDamage_nonneg {dmg : ℚ} (s : ℚ) (h : 0 ≤ dmg) :
    0 ≤ shieldedDamage dmg s := by
  unfold shieldedDamage
  split_ifs with hs
  · have := min_le_left dmg s
    linarith
  · exact h

lemma shieldedDamage_le {dmg : ℚ} (s : ℚ) (h : 0 ≤ dmg) :
    shieldedDamage dmg s ≤ dmg := by
  unfold shieldedDamage
  split_ifs with hs
  · have : (0 : ℚ) ≤ min dmg s := le_min h (le_of_lt hs)
    linarith
  · exact le_refl _

lemma afterNoDamage_nonneg {dmg : ℚ} (t : ℤ) (roll : Bool) (a : Player) (h : 0 ≤ dmg) :
    0 ≤ afterNoDamage t roll a dmg := by
  unfold afterNoDamage
  split_ifs <;> [exact le_refl 0; exact h]

lemma jsRound_nonneg {q : ℚ} (h : 0 ≤ q) : 0 ≤ jsRound q := by
  unfold jsRound
  exact Int.floor_nonneg.mpr (by linarith)

lemma afterHalfDamage_nonneg {dmg : ℚ} (t : ℤ) (d : Player) (h : 0 ≤ dmg) :
    0 ≤ afterHalfDamage t d dmg := by
  unfold afterHalfDamage
  split_ifs
  · exact_mod_cast jsRound_nonneg (by linarith)
  · exact h

lemma dealtDamage_nonneg (t : ℤ) (rolls : AttackRolls) (a d : Player) :
    0 ≤ dealtDamage t rolls a d := by
  unfold dealtDamage
  exact afterHalfDamage_nonneg _ _ (afterNoDamage_nonneg _ _ _
    (shieldedDamage_nonneg _ (le_trans zero_le_one (baseDamage_ge_one a d))))

lemma struckDefender_hpInv (t : ℤ) (rolls : AttackRolls) (a : Player) {d : Player}
    (h : hpInv d) : hpInv (struckDefender t rolls a d) := by
  obtain ⟨h0, hM⟩ := h
  have hd := dealtDamage_nonneg t rolls a d
  constructor
  · exact le_max_left _ _
  · show max 0 (d.hp - dealtDamage t rolls a d) ≤ d.hpMax
    apply max_le (le_trans h0 hM)
    linarith

lemma struckDefender_hp (t : ℤ) (rolls : AttackRolls) (a d : Player) :
    (struckDefender t rolls a d).hp = max 0 (d.hp - dealtDamage t rolls a d) := rfl

/-! ### How `resolveAttack` acts on the room -/

lemma resolveAttack_of_far {t : ℤ} {rolls : AttackRolls} {room : Room} {seat : Seat}
    {a d : Player} (hA : room.player seat = some a) (hD : room.player seat.other = some d)
    (hdist : dist a d > 1) : resolveAttack t rolls room seat = room := by
  unfold resolveAttack
  rw [hA, hD]
  simp [hdist]

lemma resolveAttack_of_near {t : ℤ} {rolls : AttackRolls} {room : Room} {seat : Seat}
    {a d : Player} (hA : room.player seat = some a) (hD : room.player seat.other = some d)
    (hdist : dist a d ≤ 1) :
    resolveAttack t rolls room seat =
      (if (struckDefender t rolls a d).hp ≤ 0 then
        { room.setPlayer seat.other (struckDefender t rolls a d) with
            winner := some seat, loser := some seat.other, started := false }
      else room.setPlayer seat.other (struckDefender t rolls a d)) := by
  unfold resolveAttack
  rw [hA, hD]
  simp [not_lt.mpr hdist]

lemma roomHpInv_endUpdate {room : Room} (h : roomHpInv room) (w l : Option Seat) (b : Bool) :
    roomHpInv { room with winner := w, loser := l, started := b } := h

lemma resolveAttack_hpInv {room : Room} (h : roomHpInv room)
    (t : ℤ) (rolls : AttackRolls) (seat : Seat) :
    roomHpInv (resolveAttack t rolls room seat) := by
  rcases hA : room.player seat with _ | a
  · unfold resolveAttack
    cases seat <;> simp_all [Room.player]
  · rcases hD : room.player seat.other with _ | d
    · unfold resolveAttack
      cases seat <;> simp_all [Room.player]
    · by_cases hdist : dist a d > 1
      · rw [resolveAttack_of_far hA hD hdist]; exact h
      · rw [resolveAttack_of_near hA hD (not_lt.mp hdist)]
        have hd : hpInv d := roomHpInv_player h hD
        have hinv := roomHpInv_setPlayer h (struckDefender_hpInv t rolls a hd) seat.other
        split_ifs
        · exact roomHpInv_endUpdate hinv _ _ _
        · exact hinv

lemma clampQ_nonneg (n hi : ℚ) : 0 ≤ clampQ n 0 hi :=
  le_max_left _ _

lemma action_hpInv {room : Room} (h : roomHpInv room)
    (t : ℤ) (rolls : AttackRolls) (cd : Cooldowns) (seat : Seat) (ty : ActionType) :
    roomHpInv (action t rolls cd room seat ty).2 := by
  rcases hP : room.player seat with _ | p
  · simp only [action, hP]
    split_ifs <;> exact h
  · have hpInvP : hpInv p := roomHpInv_player h hP
    cases ty
    case attack =>
      simp only [action, hP]
      split_ifs <;> first
        | exact h
        | exact resolveAttack_hpInv h t rolls seat
    case heal =>
      simp only [action, hP]
      split_ifs <;> try exact h
      apply roomHpInv_setPlayer h _ seat
      obtain ⟨h0, hM⟩ := hpInvP
      have hamt := clampQ_nonneg p.heal 999
      constructor
      · show (0:ℚ) ≤ min p.hpMax (p.hp + clampQ p.heal 0 999)
        exact le_min (le_trans h0 hM) (by linarith)
      · show min p.hpMax (p.hp + clampQ p.heal 0 999) ≤ p.hpMax
        exact min_le_left _ _
    case defend =>
      simp only [action, hP]
      split_ifs <;> try exact h
      refine roomHpInv_setPlayer h ?_ seat
      exact hpInvP

lemma applyMod_hpInv {p : Player} (h : hpInv p) (t : ℤ) (isBonus : Bool) (kind : ModKind) :
    hpInv (applyMod t isBonus kind p) := by
  cases isBonus <;> cases kind <;> simpa [applyMod, hpInv] using h

/-! ### Room field lemmas -/

lemma player_endUpdate (room : Room) (w l : Option Seat) (b : Bool) (s : Seat) :
    ({ room with winner := w, loser := l, started := b } : Room).player s = room.player s := by
  cases s <;> rfl

lemma winner_setPlayer (room : Room) (s : Seat) (p : Player) :
    (room.setPlayer s p).winner = room.winner := by
  cases s <;> rfl

lemma loser_setPlayer (room : Room) (s : Seat) (p : Player) :
    (room.setPlayer s p).loser = room.loser := by
  cases s <;> rfl

lemma resolveAttack_player_attacker (t : ℤ) (rolls : AttackRolls) (room : Room) (seat : Seat) :
    (resolveAttack t rolls room seat).player seat = room.player seat := by
  rcases hA : room.player seat with _ | a <;>
    rcases hD : room.player seat.other with _ | d <;>
      simp only [resolveAttack, hA, hD]
  split_ifs
  · exact hA
  · rw [player_endUpdate, player_setPlayer_of_ne _ (other_ne seat)]; exact hA
  · rw [player_setPlayer_of_ne _ (other_ne seat)]; exact hA

/-! ### Characterizations of the `action` handler's branches -/

lemma action_attack_of_gate_fail {t : ℤ} {cd : Cooldowns} (rolls : AttackRolls)
    (room : Room) (seat : Seat) (h : t < cd.attack) :
    action t rolls cd room seat .attack = (cd, room) := by
  rcases hP : room.player seat with _ | p <;>
    simp only [action, hP] <;> split_ifs <;> first | rfl | omega

lemma action_heal_of_gate_fail {t : ℤ} {cd : Cooldowns} (rolls : AttackRolls)
    (room : Room) (seat : Seat) (h : t < cd.heal) :
    action t rolls cd room seat .heal = (cd, room) := by
  rcases hP : room.player seat with _ | p <;>
    simp only [action, hP] <;> split_ifs <;> first | rfl | omega

lemma action_defend_of_gate_fail {t : ℤ} {cd : Cooldowns} (rolls : AttackRolls)
    (room : Room) (seat : Seat) (h : t < cd.defend) :
    action t rolls cd room seat .defend = (cd, room) := by
  rcases hP : room.player seat with _ | p <;>
    simp only [action, hP] <;> split_ifs <;> first | rfl | omega

lemma action_heal_of_no_uses {t : ℤ} {room : Room} {seat : Seat} {p : Player}
    (rolls : AttackRolls) (cd : Cooldowns)
    (hP : room.player seat = some p) (h : p.healLeft ≤ 0) :
    action t rolls cd room seat .heal = (cd, room) := by
  simp only [action, hP] <;> split_ifs <;> first | rfl | omega

lemma action_defend_of_no_uses {t : ℤ} {room : Room} {seat : Seat} {p : Player}
    (rolls : AttackRolls) (cd : Cooldowns)
    (hP : room.player seat = some p) (h : p.defendLeft ≤ 0) :
    action t rolls cd room seat .defend = (cd, room) := by
  simp only [action, hP] <;> split_ifs <;> first | rfl | omega

lemma action_attack_of_gate_pass {t : ℤ} {room : Room} {seat : Seat} {p : Player}
    {cd : Cooldowns} (rolls : AttackRolls)
    (hstart : room.started = true) (hP : room.player seat = some p) (h : cd.attack ≤ t) :
    action t rolls cd room seat .attack =
      ({ cd with attack := t + jsRound (COOLDOWN_ATTACK_MS * effectiveCooldownMult t p) },
       resolveAttack t rolls room seat) := by
  simp only [action, hP, hstart] <;> split_ifs <;> first | rfl | omega | simp_all

lemma action_heal_of_success {t : ℤ} {room : Room} {seat : Seat} {p : Player}
    {cd : Cooldowns} (rolls : AttackRolls)
    (hstart : room.started = true) (hP : room.player seat = some p)
    (h : cd.heal ≤ t) (huses : 0 < p.healLeft) :
    action t rolls cd room seat .heal =
      ({ cd with heal := t + jsRound (COOLDOWN_HEAL_MS * effectiveCooldownMult t p) },
       room.setPlayer seat
         { p with healLeft := p.healLeft - 1,
                  hp := min p.hpMax (p.hp + clampQ p.heal 0 999) }) := by
  simp only [action, hP, hstart] <;> split_ifs <;> first | rfl | omega | simp_all

lemma action_defend_of_success {t : ℤ} {room : Room} {seat : Seat} {p : Player}
    {cd : Cooldowns} (rolls : AttackRolls)
    (hstart : room.started = true) (hP : room.player seat = some p)
    (h : cd.defend ≤ t) (huses : 0 < p.defendLeft) :
    action t rolls cd room seat .defend =
      ({ cd with defend := t + jsRound (COOLDOWN_DEFEND_MS * effectiveCooldownMult t p) },
       room.setPlayer seat
         { p with defendLeft := p.defendLeft - 1,
                  shield := p.shield + clampQ (p.defense + 10) 5 200 }) := by
  simp only [action, hP, hstart] <;> split_ifs <;> first | rfl | omega | simp_all

/-! ### Closed forms of the damage pipeline under given statuses -/

lemma resolveAttack_defender {t : ℤ} {rolls : AttackRolls} {room : Room} {seat : Seat}
    {a d : Player} (hA : room.player seat = some a) (hD : room.player seat.other = some d)
    (hdist : dist a d ≤ 1) :
    (resolveAttack t rolls room seat).player seat.other =
      some (struckDefender t rolls a d) := by
  rw [resolveAttack_of_near hA hD hdist]
  split_ifs
  · rw [player_endUpdate, player_setPlayer_same]
  · rw [player_setPlayer_same]

lemma shieldedDamage_of_zero (dmg : ℚ) : shieldedDamage dmg 0 = dmg := by
  simp [shieldedDamage]

lemma shieldedDamage_of_pos {s : ℚ} (dmg : ℚ) (h : 0 < s) :
    shieldedDamage dmg s = dmg - min dmg s := by
  unfold shieldedDamage
  rw [if_pos h]

lemma shieldAfter_of_zero (dmg : ℚ) : shieldAfter dmg 0 = 0 := by
  simp [shieldAfter]

lemma shieldAfter_of_pos {s : ℚ} (dmg : ℚ) (h : 0 < s) :
    shieldAfter dmg s = s - min dmg s := by
  unfold shieldAfter
  rw [if_pos h, max_eq_right]
  have := min_le_right dmg s
  linarith

lemma afterNoDamage_of_expired {t : ℤ} {a : Player} (roll : Bool) (dmg : ℚ)
    (h : a.noDamageUntil ≤ t) : afterNoDamage t roll a dmg = dmg := by
  unfold afterNoDamage
  exact if_neg fun hc => absurd hc.1 (not_lt.mpr h)

lemma afterHalfDamage_of_expired {t : ℤ} {d : Player} (dmg : ℚ)
    (h : d.halfDamageUntil ≤ t) : afterHalfDamage t d dmg = dmg := by
  unfold afterHalfDamage
  exact if_neg (not_lt.mpr h)

lemma dealtDamage_plain {t : ℤ} {a d : Player} (rolls : AttackRolls)
    (hshield : d.shield = 0) (hnd : a.noDamageUntil ≤ t) (hhd : d.halfDamageUntil ≤ t) :
    dealtDamage t rolls a d = baseDamage a d := by
  unfold dealtDamage
  rw [hshield, shieldedDamage_of_zero, afterNoDamage_of_expired _ _ hnd,
    afterHalfDamage_of_expired _ hhd]

lemma dealtDamage_shielded {t : ℤ} {a d : Player} (rolls : AttackRolls)
    (hshield : 0 < d.shield) (hnd : a.noDamageUntil ≤ t) (hhd : d.halfDamageUntil ≤ t) :
    dealtDamage t rolls a d = baseDamage a d - min (baseDamage a d) d.shield := by
  unfold dealtDamage
  rw [shieldedDamage_of_pos _ hshield, afterNoDamage_of_expired _ _ hnd,
    afterHalfDamage_of_expired _ hhd]

/-! ### Concrete sample data used by the witnesses -/

/-- A fully defaulted stats request (`joinSeat` with no stats object). -/
def defaultStats : StatsReq := ⟨none, none, none, none, none⟩

/-- A player with the default stats (the values `newPlayer` produces for a
request supplying nothing), spawned at (1, 1). -/
def samplePlayer : Player :=
  { corner := .TL, x := 1, y := 1, hpMax := 100, hp := 100, atk := 20, defense := 8,
    heal := 15, power := 10000, healLeft := 6, defendLeft := 6, shield := 0,
    stink := false, noDamageUntil := 0, halfDamageUntil := 0, skillSpeedMultUntil := 0,
    powerPenaltyUntil := 0, cooldownMultUntil := 0 }

/-- A second default player, adjacent to `samplePlayer`. -/
def samplePlayerB : Player := { samplePlayer with corner := .BR, x := 1, y := 2 }

/-- A default player far away from `samplePlayer` (Manhattan distance 18). -/
def farPlayerB : Player := { samplePlayer with corner := .BR, x := 10, y := 10 }

/-- All random rolls failing. -/
def noRolls : AttackRolls := ⟨false, false, false, false⟩

/-- A started room holding the two adjacent sample players. -/
def sampleRoom : Room :=
  { started := true, endsAt := 240000, playerA := some samplePlayer,
    playerB := some samplePlayerB, winner := none, loser := none }

/-- A started room whose seat-B player is out of attack range of seat A. -/
def farRoom : Room :=
  { started := true, endsAt := 240000, playerA := some samplePlayer,
    playerB := some farPlayerB, winner := none, loser := none }

lemma samplePlayer_hpInv : hpInv samplePlayer := by
  norm_num [hpInv, samplePlayer]

lemma sampleRoom_hpInv : roomHpInv sampleRoom := by
  refine ⟨samplePlayer_hpInv, ?_⟩
  norm_num [hpInv, hpInvOpt, sampleRoom, samplePlayerB, samplePlayer]

/-! ### C1 -/

/-- C1: after every resolver operation — an `action` dispatch of any kind
(attack, heal, defend), an attack resolution, or a modifier application —
every player's hp stays within `[0, hpMax]`. -/
theorem hp_bounds_invariant (t : ℤ) (rolls : AttackRolls) (cd : Cooldowns) (room : Room)
    (seat : Seat) (ty : ActionType) (isBonus : Bool) (kind : ModKind) (p : Player)
    (hroom : roomHpInv room) (hp : hpInv p) :
    roomHpInv (action t rolls cd room seat ty).2 ∧
    roomHpInv (resolveAttack t rolls room seat) ∧
    hpInv (applyMod t isBonus kind p) :=
  ⟨action_hpInv hroom t rolls cd seat ty,
   resolveAttack_hpInv hroom t rolls seat,
   applyMod_hpInv hp t isBonus kind⟩

/-- Witness for C1 at a concrete started room with two default players. -/
theorem hp_bounds_invariant_witness :
    (roomHpInv sampleRoom ∧ hpInv samplePlayer) ∧
    (roomHpInv (action 0 noRolls ⟨0, 0, 0⟩ sampleRoom .A .attack).2 ∧
     roomHpInv (resolveAttack 0 noRolls sampleRoom .A) ∧
     hpInv (applyMod 0 false .one samplePlayer)) :=
  ⟨⟨sampleRoom_hpInv, samplePlayer_hpInv⟩,
   hp_bounds_invariant 0 noRolls ⟨0, 0, 0⟩ sampleRoom .A .attack false .one samplePlayer
     sampleRoom_hpInv samplePlayer_hpInv⟩

/-! ### C4 -/

/-- C4: for an in-range attack with no shield and no active status effects,
the defender loses exactly `max(1, round(atk − targetDef/2))` hp (floored at
0 by the hp clamp). -/
theorem base_damage_formula (t : ℤ) (rolls : AttackRolls) (room : Room) (seat : Seat)
    (a d : Player) (hA : room.player seat = some a) (hD : room.player seat.other = some d)
    (hdist : dist a d ≤ 1) (hshield : d.shield = 0)
    (hnd : a.noDamageUntil ≤ t) (hhd : d.halfDamageUntil ≤ t) :
    dealtDamage t rolls a d = max 1 ((jsRound (a.atk - d.defense / 2) : ℚ)) ∧
    ((resolveAttack t rolls room seat).player seat.other).map Player.hp =
      some (max 0 (d.hp - max 1 ((jsRound (a.atk - d.defense / 2) : ℚ)))) := by
  have hdd := dealtDamage_plain rolls hshield hnd hhd
  refine ⟨hdd, ?_⟩
  rw [resolveAttack_defender hA hD hdist, Option.map_some', struckDefender_hp, hdd]
  rfl

/-- Witness for C4: attacker atk = 20 against defender def = 8, no shield,
no statuses, deals exactly 16 damage. -/
theorem base_damage_formula_witness :
    (dist samplePlayer samplePlayerB ≤ 1 ∧ samplePlayerB.shield = 0 ∧
     samplePlayer.noDamageUntil ≤ 0 ∧ samplePlayerB.halfDamageUntil ≤ 0 ∧
     samplePlayer.atk = 20 ∧ samplePlayerB.defense = 8) ∧
    dealtDamage 0 noRolls samplePlayer samplePlayerB = 16 := by
  have h := base_damage_formula 0 noRolls sampleRoom .A samplePlayer samplePlayerB
    rfl rfl (by decide) rfl (by decide) (by decide)
  refine ⟨⟨by decide, rfl, by decide, by decide, rfl, rfl⟩, ?_⟩
  rw [h.1]
  norm_num [samplePlayer, samplePlayerB, jsRound]

/-! ### C5 -/

/-- C5: against a defender with positive shield, `blocked = min(damage,
shield)` is absorbed first: the shield drops to `shield − blocked` (never
negative), `blocked` never exceeds the shield or the raw damage, and the hp
loss is the raw damage minus `blocked`. -/
theorem shield_absorption (t : ℤ) (rolls : AttackRolls) (room : Room) (seat : Seat)
    (a d : Player) (hA : room.player seat = some a) (hD : room.player seat.other = some d)
    (hdist : dist a d ≤ 1) (hshield : 0 < d.shield)
    (hnd : a.noDamageUntil ≤ t) (hhd : d.halfDamageUntil ≤ t) :
    min (baseDamage a d) d.shield ≤ d.shield ∧
    min (baseDamage a d) d.shield ≤ baseDamage a d ∧
    dealtDamage t rolls a d = baseDamage a d - min (baseDamage a d) d.shield ∧
    ((resolveAttack t rolls room seat).player seat.other).map Player.shield =
      some (d.shield - min (baseDamage a d) d.shield) ∧
    0 ≤ d.shield - min (baseDamage a d) d.shield ∧
    ((resolveAttack t rolls room seat).player seat.other).map Player.hp =
      some (max 0 (d.hp - (baseDamage a d - min (baseDamage a d) d.shield))) := by
  have hdd := dealtDamage_shielded rolls hshield hnd hhd
  have hmin := min_le_right (baseDamage a d) d.shield
  refine ⟨hmin, min_le_left _ _, hdd, ?_, by linarith, ?_⟩
  · rw [resolveAttack_defender hA hD hdist, Option.map_some']
    show some (shieldAfter (baseDamage a d) d.shield) = _
    rw [shieldAfter_of_pos _ hshield]
  · rw [resolveAttack_defender hA hD hdist, Option.map_some', struckDefender_hp, hdd]

/-- A defender with shield 10 and hp 40 for the C5 witness. -/
def shieldedDefender : Player := { samplePlayerB with shield := 10, hp := 40 }

/-- A started room with `shieldedDefender` in seat B. -/
def shieldRoom : Room := { sampleRoom with playerB := some shieldedDefender }

/-- Witness for C5: raw damage 16 against shield 10 deals 6 and leaves
shield 0 (hp 40 goes to 34). -/
theorem shield_absorption_witness :
    ((0:ℚ) < shieldedDefender.shield ∧ dist samplePlayer shieldedDefender ≤ 1 ∧
     samplePlayer.noDamageUntil ≤ 0 ∧ shieldedDefender.halfDamageUntil ≤ 0) ∧
    (dealtDamage 0 noRolls samplePlayer shieldedDefender = 6 ∧
     ((resolveAttack 0 noRolls shieldRoom .A).player Seat.A.other).map Player.shield =
       some 0 ∧
     ((resolveAttack 0 noRolls shieldRoom .A).player Seat.A.other).map Player.hp =
       some 34) := by
  have h := shield_absorption 0 noRolls shieldRoom .A samplePlayer shieldedDefender
    rfl rfl (by decide) (by norm_num [shieldedDefender, samplePlayerB, samplePlayer])
    (by decide) (by decide)
  have hbd : baseDamage samplePlayer shieldedDefender = 16 := by
    norm_num [baseDamage, samplePlayer, samplePlayerB, shieldedDefender, jsRound]
  refine ⟨⟨by norm_num [shieldedDefender, samplePlayerB, samplePlayer], by decide,
    by decide, by decide⟩, ?_, ?_, ?_⟩
  · rw [h.2.2.1, hbd]
    norm_num [shieldedDefender, samplePlayerB, samplePlayer, min_def]
  · rw [h.2.2.2.1, hbd]
    norm_num [shieldedDefender, samplePlayerB, samplePlayer, min_def]
  · rw [h.2.2.2.2.2, hbd]
    norm_num [shieldedDefender, samplePlayerB, samplePlayer, min_def]

/-! ### C3 -/

/-- C3: an attack never damages the attacker, so no single resolving action
can bring both players to hp 0 — the draw clause holds (vacuously); in every
actual death case the struck seat loses and the attacker's seat wins, and a
non-lethal attack leaves winner/loser unset. Positivity of both pre-hp values
is the running-match invariant (hp reaching 0 ends the match). -/
theorem simultaneous_death_draw (t : ℤ) (rolls : AttackRolls) (room : Room) (seat : Seat)
    (a d a' d' : Player)
    (hA : room.player seat = some a) (hD : room.player seat.other = some d)
    (hwin : room.winner = none) (hlose : room.loser = none)
    (hahp : 0 < a.hp) (hdhp : 0 < d.hp)
    (hA' : (resolveAttack t rolls room seat).player seat = some a')
    (hD' : (resolveAttack t rolls room seat).player seat.other = some d') :
    ¬(a'.hp = 0 ∧ d'.hp = 0) ∧
    ((a'.hp = 0 ∧ d'.hp = 0) →
      (resolveAttack t rolls room seat).winner = none ∧
      (resolveAttack t rolls room seat).loser = none) ∧
    (d'.hp = 0 →
      (resolveAttack t rolls room seat).winner = some seat ∧
      (resolveAttack t rolls room seat).loser = some seat.other) ∧
    (d'.hp ≠ 0 →
      (resolveAttack t rolls room seat).winner = none ∧
      (resolveAttack t rolls room seat).loser = none) := by
  have haa : a' = a := by
    rw [resolveAttack_player_attacker, hA] at hA'
    exact (Option.some.inj hA').symm
  have hahp' : a'.hp ≠ 0 := by rw [haa]; exact ne_of_gt hahp
  by_cases hdist : dist a d > 1
  · have hfar := @resolveAttack_of_far t rolls room seat a d hA hD hdist
    rw [hfar] at hD' ⊢
    have hdd : d' = d := by rw [hD] at hD'; exact (Option.some.inj hD').symm
    refine ⟨fun h => hahp' h.1, fun h => absurd h.1 hahp', ?_, fun _ => ⟨hwin, hlose⟩⟩
    intro h0
    rw [hdd] at h0
    exact absurd h0 (ne_of_gt hdhp)
  · have hnear := @resolveAttack_of_near t rolls room seat a d hA hD (not_lt.mp hdist)
    rw [hnear] at hD' ⊢
    split_ifs at hD' ⊢ with hdead
    · rw [player_endUpdate, player_setPlayer_same] at hD'
      have hdd : d' = struckDefender t rolls a d := (Option.some.inj hD').symm
      refine ⟨fun h => hahp' h.1, fun h => absurd h.1 hahp', fun _ => ⟨rfl, rfl⟩, ?_⟩
      intro hne
      have h0 : (struckDefender t rolls a d).hp = 0 :=
        le_antisymm hdead (le_max_left 0 _)
      exact absurd (hdd ▸ h0) hne
    · rw [player_setPlayer_same] at hD'
      have hdd : d' = struckDefender t rolls a d := (Option.some.inj hD').symm
      have hne : d'.hp ≠ 0 := by
        rw [hdd]
        exact fun h => hdead (le_of_eq h)
      refine ⟨fun h => hahp' h.1, fun h => absurd h.1 hahp', fun h0 => absurd h0 hne, ?_⟩
      intro _
      rw [winner_setPlayer, loser_setPlayer]
      exact ⟨hwin, hlose⟩

/-- Witness for C3 at a concrete room (out-of-range attack: nothing changes,
nobody dies, winner and loser stay unset). -/
theorem simultaneous_death_draw_witness :
    ((0:ℚ) < samplePlayer.hp ∧ (0:ℚ) < farPlayerB.hp ∧ farRoom.winner = none) ∧
    (¬(samplePlayer.hp = 0 ∧ farPlayerB.hp = 0) ∧
     ((samplePlayer.hp = 0 ∧ farPlayerB.hp = 0) →
       (resolveAttack 0 noRolls farRoom .A).winner = none ∧
       (resolveAttack 0 noRolls farRoom .A).loser = none) ∧
     (farPlayerB.hp = 0 →
       (resolveAttack 0 noRolls farRoom .A).winner = some .A ∧
       (resolveAttack 0 noRolls farRoom .A).loser = some (Seat.other .A)) ∧
     (farPlayerB.hp ≠ 0 →
       (resolveAttack 0 noRolls farRoom .A).winner = none ∧
       (resolveAttack 0 noRolls farRoom .A).loser = none)) := by
  have hfar : resolveAttack 0 noRolls farRoom .A = farRoom :=
    resolveAttack_of_far rfl rfl (by decide)
  refine ⟨⟨by norm_num [samplePlayer], by norm_num [farPlayerB, samplePlayer], rfl⟩, ?_⟩
  exact simultaneous_death_draw 0 noRolls farRoom .A samplePlayer farPlayerB
    samplePlayer farPlayerB rfl rfl rfl rfl
    (by norm_num [samplePlayer]) (by norm_num [farPlayerB, samplePlayer])
    (by rw [hfar]; rfl) (by rw [hfar]; rfl)

/-! ### C6 -/

/-- C6: match end by timeout with both seats occupied: strictly higher hp
wins; on equal hp strictly higher effective power wins; on equal hp and
equal effective power seat A is the deterministic fallback winner. -/
theorem timeout_winner_policy (t : ℤ) (pA pB : Player) :
    (pB.hp < pA.hp → decideTimeoutWinner t pA pB = (.A, .B)) ∧
    (pA.hp < pB.hp → decideTimeoutWinner t pA pB = (.B, .A)) ∧
    (pA.hp = pB.hp → effectivePower t pB < effectivePower t pA →
      decideTimeoutWinner t pA pB = (.A, .B)) ∧
    (pA.hp = pB.hp → effectivePower t pA < effectivePower t pB →
      decideTimeoutWinner t pA pB = (.B, .A)) ∧
    (pA.hp = pB.hp → effectivePower t pA = effectivePower t pB →
      decideTimeoutWinner t pA pB = (.A, .B)) := by
  unfold decideTimeoutWinner
  refine ⟨?_, ?_, ?_, ?_, ?_⟩ <;> intros <;> split_ifs <;> first | rfl | linarith

/-- A timeout player with hp 40. -/
def timeoutA : Player := { samplePlayer with hp := 40 }

/-- A timeout player with hp 30. -/
def timeoutB : Player := { samplePlayer with hp := 30 }

/-- A timeout player with hp 40 and power 5000. -/
def timeoutA2 : Player := { samplePlayer with hp := 40, power := 5000 }

/-- A timeout player with hp 40 and power 6000. -/
def timeoutB2 : Player := { samplePlayer with hp := 40, power := 6000 }

/-- Witness for C6: A hp 40 vs B hp 30 gives winner A; equal hp with
A power 5000 vs B power 6000 gives winner B. -/
theorem timeout_winner_policy_witness :
    (timeoutB.hp < timeoutA.hp ∧ decideTimeoutWinner 0 timeoutA timeoutB = (.A, .B)) ∧
    ((timeoutA2.hp = timeoutB2.hp ∧
      effectivePower 0 timeoutA2 < effectivePower 0 timeoutB2) ∧
     decideTimeoutWinner 0 timeoutA2 timeoutB2 = (.B, .A)) := by
  have h1 : timeoutB.hp < timeoutA.hp := by norm_num [timeoutA, timeoutB, samplePlayer]
  have h2 : timeoutA2.hp = timeoutB2.hp := by norm_num [timeoutA2, timeoutB2, samplePlayer]
  have h3 : effectivePower 0 timeoutA2 < effectivePower 0 timeoutB2 := by
    norm_num [effectivePower, timeoutA2, timeoutB2, samplePlayer]
  exact ⟨⟨h1, (timeout_winner_policy 0 timeoutA timeoutB).1 h1⟩,
    ⟨⟨h2, h3⟩, (timeout_winner_policy 0 timeoutA2 timeoutB2).2.2.2.1 h2 h3⟩⟩

/-! ### C2 -/

/-- C2 counterexample: at time 1000 with a zeroed cooldown state, seat A's
attack against an out-of-range defender is rejected — the room is returned
unchanged — yet the attack cooldown not-before timestamp is mutated from 0
to 2200. This refutes the claim that a rejected attempt (including an
out-of-range attack) leaves the cooldown timestamp unchanged. -/
theorem cooldown_mutation_counterexample :
    dist samplePlayer farPlayerB > 1 ∧
    (action 1000 noRolls ⟨0, 0, 0⟩ farRoom .A .attack).2 = farRoom ∧
    (action 1000 noRolls ⟨0, 0, 0⟩ farRoom .A .attack).1.attack = 2200 ∧
    ((2200 : ℤ) ≠ 0) := by
  have hact := @action_attack_of_gate_pass 1000 farRoom Seat.A samplePlayer
    ⟨0, 0, 0⟩ noRolls rfl rfl (by decide)
  have hfar : resolveAttack 1000 noRolls farRoom .A = farRoom :=
    resolveAttack_of_far rfl rfl (by decide)
  rw [hact]
  refine ⟨by decide, hfar, ?_, by decide⟩
  show 1000 + jsRound (COOLDOWN_ATTACK_MS * effectiveCooldownMult 1000 samplePlayer) = 2200
  norm_num [COOLDOWN_ATTACK_MS, effectiveCooldownMult, samplePlayer, jsRound]

/-- C2 amended: the cooldown not-before timestamp of an action kind is
mutated exactly when the attempt passes that kind's cooldown gate (and, for
heal/defend, the use-count check); an attempt rejected by the gate or by
zero remaining uses leaves all cooldown state (and the room) unchanged — but
a gate-passing attack sets the attack cooldown even when the attack itself
is then rejected as out-of-range. -/
theorem cooldown_mutation_amended (t : ℤ) (rolls : AttackRolls) (cd : Cooldowns)
    (room : Room) (seat : Seat) (p : Player)
    (hstart : room.started = true) (hP : room.player seat = some p) :
    ((t < cd.attack → action t rolls cd room seat .attack = (cd, room)) ∧
     (t < cd.heal → action t rolls cd room seat .heal = (cd, room)) ∧
     (t < cd.defend → action t rolls cd room seat .defend = (cd, room))) ∧
    ((p.healLeft ≤ 0 → action t rolls cd room seat .heal = (cd, room)) ∧
     (p.defendLeft ≤ 0 → action t rolls cd room seat .defend = (cd, room))) ∧
    (cd.attack ≤ t → (action t rolls cd room seat .attack).1 =
      { cd with attack := t + jsRound (COOLDOWN_ATTACK_MS * effectiveCooldownMult t p) }) ∧
    (cd.heal ≤ t → 0 < p.healLeft → (action t rolls cd room seat .heal).1 =
      { cd with heal := t + jsRound (COOLDOWN_HEAL_MS * effectiveCooldownMult t p) }) ∧
    (cd.defend ≤ t → 0 < p.defendLeft → (action t rolls cd room seat .defend).1 =
      { cd with defend := t + jsRound (COOLDOWN_DEFEND_MS * effectiveCooldownMult t p) }) := by
  refine ⟨⟨fun h => action_attack_of_gate_fail rolls room seat h,
           fun h => action_heal_of_gate_fail rolls room seat h,
           fun h => action_defend_of_gate_fail rolls room seat h⟩,
          ⟨fun h => action_heal_of_no_uses rolls cd hP h,
           fun h => action_defend_of_no_uses rolls cd hP h⟩,
          fun h => by rw [action_attack_of_gate_pass rolls hstart hP h],
          fun h hu => by rw [action_heal_of_success rolls hstart hP h hu],
          fun h hu => by rw [action_defend_of_success rolls hstart hP h hu]⟩

/-- A cooldown state with every not-before timestamp at 5000. -/
def sampleCd : Cooldowns := ⟨5000, 5000, 5000⟩

/-- Witness for the amended C2 at a concrete room and cooldown state. -/
theorem cooldown_mutation_amended_witness :
    (sampleRoom.started = true ∧ sampleRoom.player .A = some samplePlayer) ∧
    (((1000:ℤ) < sampleCd.attack →
        action 1000 noRolls sampleCd sampleRoom .A .attack = (sampleCd, sampleRoom)) ∧
     ((1000:ℤ) < sampleCd.heal →
        action 1000 noRolls sampleCd sampleRoom .A .heal = (sampleCd, sampleRoom)) ∧
     ((1000:ℤ) < sampleCd.defend →
        action 1000 noRolls sampleCd sampleRoom .A .defend = (sampleCd, sampleRoom))) ∧
    ((samplePlayer.healLeft ≤ 0 →
        action 1000 noRolls sampleCd sampleRoom .A .heal = (sampleCd, sampleRoom)) ∧
     (samplePlayer.defendLeft ≤ 0 →
        action 1000 noRolls sampleCd sampleRoom .A .defend = (sampleCd, sampleRoom))) ∧
    (sampleCd.attack ≤ 1000 → (action 1000 noRolls sampleCd sampleRoom .A .attack).1 =
      { sampleCd with attack :=
          1000 + jsRound (COOLDOWN_ATTACK_MS * effectiveCooldownMult 1000 samplePlayer) }) ∧
    (sampleCd.heal ≤ 1000 → 0 < samplePlayer.healLeft →
      (action 1000 noRolls sampleCd sampleRoom .A .heal).1 =
      { sampleCd with heal :=
          1000 + jsRound (COOLDOWN_HEAL_MS * effectiveCooldownMult 1000 samplePlayer) }) ∧
    (sampleCd.defend ≤ 1000 → 0 < samplePlayer.defendLeft →
      (action 1000 noRolls sampleCd sampleRoom .A .defend).1 =
      { sampleCd with defend :=
          1000 + jsRound (COOLDOWN_DEFEND_MS * effectiveCooldownMult 1000 samplePlayer) }) :=
  ⟨⟨rfl, rfl⟩,
   cooldown_mutation_amended 1000 noRolls sampleCd sampleRoom .A samplePlayer rfl rfl⟩

/-! ### C7 -/

/-- C7: an action attempt made before its cooldown not-before timestamp, or
a heal/defend attempt with zero remaining uses, leaves the entire cooldown
state and room (hp, shield, use counters) unchanged. -/
theorem rejected_attempt_no_mutation (t : ℤ) (rolls : AttackRolls) (cd : Cooldowns)
    (room : Room) (seat : Seat) (p : Player) (hP : room.player seat = some p) :
    ((t < cd.attack → action t rolls cd room seat .attack = (cd, room)) ∧
     (t < cd.heal → action t rolls cd room seat .heal = (cd, room)) ∧
     (t < cd.defend → action t rolls cd room seat .defend = (cd, room))) ∧
    ((p.healLeft ≤ 0 → action t rolls cd room seat .heal = (cd, room)) ∧
     (p.defendLeft ≤ 0 → action t rolls cd room seat .defend = (cd, room))) :=
  ⟨⟨fun h => action_attack_of_gate_fail rolls room seat h,
    fun h => action_heal_of_gate_fail rolls room seat h,
    fun h => action_defend_of_gate_fail rolls room seat h⟩,
   ⟨fun h => action_heal_of_no_uses rolls cd hP h,
    fun h => action_defend_of_no_uses rolls cd hP h⟩⟩

/-- A player whose heal and defend uses are exhausted. -/
def spentPlayer : Player := { samplePlayer with healLeft := 0, defendLeft := 0 }

/-- A started room whose seat-A player has no uses left. -/
def spentRoom : Room := { sampleRoom with playerA := some spentPlayer }

/-- Witness for C7: an in-cooldown attack attempt and an out-of-uses heal
attempt at a concrete room both leave everything unchanged. -/
theorem rejected_attempt_no_mutation_witness :
    (spentRoom.player .A = some spentPlayer ∧ (1000:ℤ) < sampleCd.attack ∧
     spentPlayer.healLeft ≤ 0) ∧
    (action 1000 noRolls sampleCd spentRoom .A .attack = (sampleCd, spentRoom) ∧
     action 9000 noRolls sampleCd spentRoom .A .heal = (sampleCd, spentRoom)) := by
  have h1 := rejected_attempt_no_mutation 1000 noRolls sampleCd spentRoom .A spentPlayer rfl
  have h2 := rejected_attempt_no_mutation 9000 noRolls sampleCd spentRoom .A spentPlayer rfl
  exact ⟨⟨rfl, by decide, by decide⟩, h1.1.1 (by decide), h2.2.1 (by decide)⟩

/-! ### C8 -/

/-- C8: a successful defend adds `clamp(def + 10, 5, 200)` to the player's
existing shield (additive, not overwritten) and decrements the use counter;
the player's own shield is untouched by their subsequent heal, attack or
move, persisting until consumed by an incoming hit. -/
theorem defend_additive_shield (t : ℤ) (rolls : AttackRolls) (cd : Cooldowns)
    (room : Room) (seat : Seat) (dir : Dir) (p : Player)
    (hstart : room.started = true) (hP : room.player seat = some p)
    (hgate : cd.defend ≤ t) (huses : 0 < p.defendLeft) :
    ((action t rolls cd room seat .defend).2.player seat =
      some { p with defendLeft := p.defendLeft - 1,
                    shield := p.shield + clampQ (p.defense + 10) 5 200 }) ∧
    (∀ p', (action t rolls cd room seat .heal).2.player seat = some p' →
      p'.shield = p.shield) ∧
    (∀ p', (action t rolls cd room seat .attack).2.player seat = some p' →
      p'.shield = p.shield) ∧
    (∀ p', (movePlayer room seat dir).player seat = some p' → p'.shield = p.shield) := by
  refine ⟨?_, ?_, ?_, ?_⟩
  · rw [action_defend_of_success rolls hstart hP hgate huses]
    exact player_setPlayer_same room seat _
  · intro p' h'
    by_cases hg : t < cd.heal
    · rw [action_heal_of_gate_fail rolls room seat hg, hP] at h'
      rw [← Option.some.inj h']
    · by_cases hu : p.healLeft ≤ 0
      · rw [action_heal_of_no_uses rolls cd hP hu, hP] at h'
        rw [← Option.some.inj h']
      · rw [action_heal_of_success rolls hstart hP (not_lt.mp hg) (not_le.mp hu),
          player_setPlayer_same] at h'
        rw [← Option.some.inj h']
  · intro p' h'
    by_cases hg : t < cd.attack
    · rw [action_attack_of_gate_fail rolls room seat hg, hP] at h'
      rw [← Option.some.inj h']
    · have hres : (action t rolls cd room seat .attack).2 =
          resolveAttack t rolls room seat := by
        rw [action_attack_of_gate_pass rolls hstart hP (not_lt.mp hg)]
      rw [hres, resolveAttack_player_attacker, hP] at h'
      rw [← Option.some.inj h']
  · intro p' h'
    rcases hO : room.player seat.other with _ | o <;>
      simp only [movePlayer, hP, hO] at h' <;>
      split_ifs at h' <;>
        first
          | (rw [player_setPlayer_same] at h'; rw [← Option.some.inj h'])
          | (rw [hP] at h'; rw [← Option.some.inj h'])

/-- Witness for C8: at time 8000 the sample player's defend passes the gate
and adds `clamp(8 + 10, 5, 200) = 18` to shield 0. -/
theorem defend_additive_shield_witness :
    (sampleRoom.started = true ∧ sampleRoom.player .A = some samplePlayer ∧
     sampleCd.defend ≤ 8000 ∧ 0 < samplePlayer.defendLeft) ∧
    ((action 8000 noRolls sampleCd sampleRoom .A .defend).2.player .A =
      some { samplePlayer with
               defendLeft := samplePlayer.defendLeft - 1,
               shield := samplePlayer.shield + clampQ (samplePlayer.defense + 10) 5 200 }) := by
  have h := defend_additive_shield 8000 noRolls sampleCd sampleRoom .A .U samplePlayer
    rfl rfl (by decide) (by decide)
  exact ⟨⟨rfl, rfl, by decide, by decide⟩, h.1⟩

/-! ### C9 -/

/-- C9: a move whose candidate cell is out of the grid, or occupied by the
other seat's player, is silently rejected leaving the room unchanged; when
the candidate is fully valid the position is updated to exactly the
candidate cell (no partial moves). -/
theorem move_validation (room : Room) (seat : Seat) (dir : Dir) (p : Player)
    (hP : room.player seat = some p) :
    (canMoveTo (candidate p dir).1 (candidate p dir).2 = false →
      movePlayer room seat dir = room) ∧
    (∀ o, room.player seat.other = some o →
      o.x = (candidate p dir).1 → o.y = (candidate p dir).2 →
      movePlayer room seat dir = room) ∧
    (canMoveTo (candidate p dir).1 (candidate p dir).2 = true →
      (∀ o, room.player seat.other = some o →
        ¬(o.x = (candidate p dir).1 ∧ o.y = (candidate p dir).2)) →
      movePlayer room seat dir =
        room.setPlayer seat { p with x := (candidate p dir).1, y := (candidate p dir).2 }) := by
  refine ⟨?_, ?_, ?_⟩
  · intro hcm
    simp [movePlayer, hP, hcm]
  · intro o hO hx hy
    simp only [movePlayer, hP, hO]
    split_ifs with h1 h2 <;> first | rfl | exact absurd ⟨hx, hy⟩ h2
  · intro hcm hno
    rcases hO : room.player seat.other with _ | o
    · simp [movePlayer, hP, hO, hcm]
    · have hcol := hno o hO
      simp [movePlayer, hP, hO, hcm, hcol]

/-- Witness for C9: in the sample room seat A moves up to the free in-bounds
cell (1, 0). -/
theorem move_validation_witness :
    (sampleRoom.player .A = some samplePlayer ∧
     canMoveTo (candidate samplePlayer .U).1 (candidate samplePlayer .U).2 = true ∧
     sampleRoom.player (Seat.other .A) = some samplePlayerB ∧
     ¬(samplePlayerB.x = (candidate samplePlayer .U).1 ∧
       samplePlayerB.y = (candidate samplePlayer .U).2)) ∧
    movePlayer sampleRoom .A .U =
      sampleRoom.setPlayer .A
        { samplePlayer with x := (candidate samplePlayer .U).1,
                            y := (candidate samplePlayer .U).2 } := by
  have h := move_validation sampleRoom .A .U samplePlayer rfl
  refine ⟨⟨rfl, by decide, rfl, by decide⟩, ?_⟩
  refine h.2.2 (by decide) ?_
  intro o hO
  rw [show o = samplePlayerB from Option.some.inj hO.symm]
  decide

/-! ### C10 -/

/-- C10: `newPlayer` clamps `hp` to `[1, 9999]` but `hpMax` to `[10, 9999]`
from the same requested value, so a request of 5 gives hpMax 10 with hp 5
(strictly below hpMax) and a non-numeric request gives hpMax 10 with hp 1;
still `hp ≤ hpMax` for every request, and the `startMatch` reset sets
`hp = hpMax`. -/
theorem player_creation_hp_clamp :
    ((newPlayer .TL { defaultStats with hpMax := some (JsNum.num 5) }).hpMax = 10 ∧
     (newPlayer .TL { defaultStats with hpMax := some (JsNum.num 5) }).hp = 5 ∧
     (newPlayer .TL { defaultStats with hpMax := some (JsNum.num 5) }).hp <
       (newPlayer .TL { defaultStats with hpMax := some (JsNum.num 5) }).hpMax) ∧
    ((newPlayer .TL { defaultStats with hpMax := some JsNum.nan }).hpMax = 10 ∧
     (newPlayer .TL { defaultStats with hpMax := some JsNum.nan }).hp = 1) ∧
    (∀ (c : Corner) (stats : StatsReq),
      (newPlayer c stats).hp ≤ (newPlayer c stats).hpMax) ∧
    (∀ q : Player, (resetPlayer q).hp = (resetPlayer q).hpMax) := by
  refine ⟨⟨?_, ?_, ?_⟩, ⟨?_, ?_⟩, ?_, ?_⟩
  · norm_num [newPlayer, defaultStats, clamp, orDefault, min_def, max_def]
  · norm_num [newPlayer, defaultStats, clamp, orDefault, min_def, max_def]
  · norm_num [newPlayer, defaultStats, clamp, orDefault, min_def, max_def]
  · norm_num [newPlayer, defaultStats, clamp, orDefault]
  · norm_num [newPlayer, defaultStats, clamp, orDefault]
  · intro c stats
    show clamp (orDefault stats.hpMax 100) 1 9999 ≤ clamp (orDefault stats.hpMax 100) 10 9999
    rcases orDefault stats.hpMax 100 with _ | q
    · norm_num [clamp]
    · simp only [clamp]
      exact max_le_max (by norm_num) le_rfl
  · intro q
    rfl

end Arena
